import Mathlib

/-!
Verification of the incremental price-series synchronization and ranking-signal
engine of this repository.

Shallow embedding conventions:
* Source floats are modelled as rationals (ℚ); Python `round(x, n)` is modelled
  by `roundTo` (round-half-to-even on the scaled value, as Python rounds).
* A price bar (one CSV row / one upstream page row) is a `Row` with the six
  core fields the engine interprets; upstream pass-through fields are opaque to
  every computation modelled here and are omitted.
* The paged upstream API is modelled by a list of `T1305Response`; the fetch
  loop of `LsOpenApiT1305.fetch_t1305` consumes one response per iteration.
  Running out of responses while the loop would issue another request is the
  `needMore` outcome (the loop did not stop within the supplied prefix of the
  upstream behaviour).
* File contents observable on disk are modelled as lists of `FileLine`; the
  in-place write pattern of `write_csv` is modelled as the list of contents
  observable after each successive write call.
-/

/-- Model of one parsed price bar (a CSV row of a SeriesSnapshot, or one row of
an upstream `t1305OutBlock1` page).  Field `opn` models the source field
`open` (a reserved word in Lean).  Dates are `YYYYMMDD` strings, compared
lexicographically exactly as the Python source compares them. -/
structure Row where
  date : String
  opn : ℚ
  high : ℚ
  low : ℚ
  close : ℚ
  volume : ℤ
deriving DecidableEq, Repr

/-- Python string `<`: lexicographic comparison of the code-point sequences,
a proper prefix being smaller.  (Kept structural so that it evaluates inside
the kernel.) -/
def listCharLt : List Char → List Char → Bool
  | [], [] => false
  | [], _ :: _ => true
  | _ :: _, [] => false
  | a :: as, b :: bs =>
    if a.toNat < b.toNat then true
    else if b.toNat < a.toNat then false
    else listCharLt as bs

/-- Python `a < b` on strings (and `a > b` as `strLt b a`), as used for the
`YYYYMMDD` date comparisons throughout the source. -/
def strLt (a b : String) : Bool := listCharLt a.data b.data

/-- Rows of the incoming catch-up window that are strictly newer than the
stored newest date: `[r for r in new_rows_buffer if r.get("date") > last_date]`
(src/modifications/append_stock_prices.py line 177). -/
def rowsToAdd (lastDate : String) (incoming : List Row) : List Row :=
  incoming.filter fun r => strLt lastDate r.date

/-- Action taken by the update branch of `append_stock_prices.main` for a
ticker whose snapshot file already exists (lines 148-192). -/
inductive UpdateAction where
  | redownload
  | write (newContents : List Row)
  | skip
deriving DecidableEq, Repr

/-- The update branch of `append_stock_prices.main` (lines 148-192): read the
existing snapshot; if it is empty or its first row has no date, re-download
from scratch; otherwise prepend the strictly newer incoming rows and write, or
skip (no write) when there are none. -/
def updateExisting (existing incoming : List Row) : UpdateAction :=
  let lastDate := (existing.head?.map Row.date).getD ""
  if lastDate = "" then .redownload
  else
    let toAdd := rowsToAdd lastDate incoming
    if toAdd = [] then .skip else .write (toAdd ++ existing)

/-- Snapshot contents after the update branch runs: `fresh` is what a
re-download would store, `existing` is kept on a skip, and a write stores the
merged rows. -/
def applyUpdate (fresh existing incoming : List Row) : List Row :=
  match updateExisting existing incoming with
  | .redownload => fresh
  | .skip => existing
  | .write c => c

/-- One upstream response consumed by the `fetch_t1305` continuation loop:
application status (`rsp_cd`/`rsp_msg`), the optional `date` key of
`t1305OutBlock` (the next-page anchor), the page rows `t1305OutBlock1`, and the
`tr_cont` / `tr_cont_key` response headers (absent headers modelled as `""`,
exactly how the source's `or ""` / `or "N"` chains collapse them). -/
structure T1305Response where
  rspCd : String
  rspMsg : String
  outDate : Option String
  rows : List Row
  hTrCont : String
  hTrContKey : String
deriving DecidableEq, Repr

/-- One request body/headers issued by the loop: the anchor `date`, the `cnt`
field `max(1, min(cnt - len(total_rows), cnt))`, and the `tr_cont` /
`tr_cont_key` headers carried from the prior response. -/
structure T1305Request where
  date : String
  cnt : Nat
  trCont : String
  trContKey : String
deriving DecidableEq, Repr

/-- Mutable state threaded through the `while True` loop of `fetch_t1305`
(src/apps/ls_t1305.py lines 116-119): `total_rows`, `next_date`, `tr_cont`,
`tr_cont_key`. -/
structure FetchState where
  total : List Row
  nextDate : String
  trCont : String
  trContKey : String
deriving DecidableEq, Repr

/-- Boolean test that the first character list starts with the second. -/
def listStarts : List Char → List Char → Bool
  | _, [] => true
  | [], _ :: _ => false
  | a :: as, b :: bs => if a = b then listStarts as bs else false

/-- Continuation test `(h_tr_cont or "N").upper().startswith("Y")`
(line 160); an absent or empty header behaves as "N". -/
def contFlagSet (h : String) : Bool :=
  listStarts (((if h = "" then "N" else h).data).map Char.toUpper) (String.data "Y")

/-- Result of one loop iteration: the loop returns (`stop`), raises on a
non-success `rsp_cd` (`fail`), or continues with an updated state (`again`). -/
inductive StepRes where
  | stop (bars : List Row)
  | fail (code msg : String)
  | again (s : FetchState)
deriving DecidableEq, Repr

/-- The request issued at the top of one loop iteration (lines 122-132). -/
def mkRequest (cnt : Nat) (s : FetchState) : T1305Request :=
  { date := s.nextDate
    cnt := max 1 (min (cnt - s.total.length) cnt)
    trCont := s.trCont
    trContKey := s.trContKey }

/-- One iteration of the `fetch_t1305` loop body applied to the response `r`
(lines 133-169): reject a non-success `rsp_cd`, extend the accumulator with the
page, stop once `cnt` rows are accumulated, otherwise follow the continuation
header — with `next_date := out.get("date", next_date)` and an empty resulting
cursor treated as end-of-data. -/
def fetchStep (cnt : Nat) (s : FetchState) (r : T1305Response) : StepRes :=
  if r.rspCd ≠ "" ∧ r.rspCd ≠ "00000" then .fail r.rspCd r.rspMsg
  else
    let total2 := s.total ++ r.rows
    if cnt ≤ total2.length then .stop (total2.take cnt)
    else if contFlagSet r.hTrCont then
      let nd := r.outDate.getD s.nextDate
      if nd = "" then .stop (total2.take cnt)
      else .again { total := total2, nextDate := nd, trCont := "Y", trContKey := r.hTrContKey }
    else .stop (total2.take cnt)

/-- Overall outcome of running the loop against a finite prefix of upstream
responses: it returned its accumulated rows truncated to `cnt` (`done`),
raised (`failed`), or wanted yet another page beyond the supplied responses
(`needMore`). -/
inductive FetchOutcome where
  | done (bars : List Row)
  | failed (code msg : String)
  | needMore
deriving DecidableEq, Repr

/-- The `fetch_t1305` loop, one consumed response per iteration, returning the
trace of issued requests together with the outcome. -/
def fetchGo (cnt : Nat) (s : FetchState) : List T1305Response → List T1305Request × FetchOutcome
  | [] => ([], .needMore)
  | r :: rest =>
    match fetchStep cnt s r with
    | .stop bars => ([mkRequest cnt s], .done bars)
    | .fail c m => ([mkRequest cnt s], .failed c m)
    | .again s2 =>
      let p := fetchGo cnt s2 rest
      (mkRequest cnt s :: p.1, p.2)

/-- Initial loop state (lines 116-119): empty accumulator, empty anchor date,
`tr_cont = "N"`, empty continuation key. -/
def initFetchState : FetchState :=
  { total := [], nextDate := "", trCont := "N", trContKey := "" }

/-- `LsOpenApiT1305.fetch_t1305` (non-mock path) run against the given upstream
responses with requested row count `cnt`. -/
def fetch_t1305 (responses : List T1305Response) (cnt : Nat) :
    List T1305Request × FetchOutcome :=
  fetchGo cnt initFetchState responses

/-- Number of rows accumulated before the k-th request, counted from the pages
of the first k consumed responses. -/
def accumBefore (rs : List T1305Response) (k : Nat) : Nat :=
  (((rs.take k).map T1305Response.rows).flatten).length

/-- Python `round(x, n)` on exact rationals: round half to even. -/
def pyRoundInt (q : ℚ) : ℤ :=
  if q - (⌊q⌋ : ℚ) = 1 / 2 then (if ⌊q⌋ % 2 = 0 then ⌊q⌋ else ⌊q⌋ + 1)
  else round q

/-- Model of Python `round(q, nd)`. -/
def roundTo (nd : Nat) (q : ℚ) : ℚ :=
  ((pyRoundInt (q * (10 : ℚ) ^ nd) : ℤ) : ℚ) / (10 : ℚ) ^ nd

/-- `pct_rank` of src/apps/signals.py lines 64-68: percentage of entries of
`arr` that are `≤ value`, `0.0` for an empty list. -/
def pct_rank (value : ℚ) (arr : List ℚ) : ℚ :=
  if arr = [] then 0
  else (((arr.filter fun x => x ≤ value).length : ℚ) / (arr.length : ℚ)) * 100

/-- `statistics.mean` on a list of rationals (callers guarantee nonempty). -/
def listMean (l : List ℚ) : ℚ := l.sum / (l.length : ℚ)

/-- Python `max(arr)` for the nonempty lists the source applies it to. -/
def listMax (l : List ℚ) : ℚ := l.foldl max (l.headD 0)

/-- `normalize_ret20` of src/apps/signals.py lines 110-118: `None` maps to the
neutral 50, otherwise clamp to [-20, 20] and rescale linearly to [0, 100]. -/
def normalize_ret20 : Option ℚ → ℚ
  | none => 50
  | some x =>
    if x ≤ -20 then 0
    else if 20 ≤ x then 100
    else (x - (-20)) / (20 - (-20)) * 100

/-- Stable descending insertion by date: the new row is placed before the
first stored row whose date it is ≥ to. -/
def insertRowDesc (r : Row) : List Row → List Row
  | [] => [r]
  | x :: xs => if strLt r.date x.date then x :: insertRowDesc r xs else r :: x :: xs

/-- `pairs.sort(key=lambda x: x[0], reverse=True)` of `read_prices_csv`
(src/apps/signals.py lines 56-58): stable sort of the parsed rows by date
string, descending (newest first).  A stable sort is extensionally unique, so
insertion sort is the same function as the source's sort. -/
def sortRowsDesc (l : List Row) : List Row := l.foldr insertRowDesc []

/-- Unrounded metrics of `compute_signals_for_ticker`
(src/apps/signals.py lines 84-126), computed from the date-sorted rows. -/
structure RawMetrics where
  date : String
  close0 : ℚ
  high60 : ℚ
  proximity_pct : ℚ
  proximity_score : ℚ
  ret20 : Option ℚ
  vol_pct : ℚ
  ma20 : Option ℚ
  ma60 : Option ℚ
  above_ma20 : Bool
  trend_ma : Bool
  ma_points : ℚ
  score : ℚ
deriving DecidableEq, Repr

/-- Metric computation of `compute_signals_for_ticker` on the sorted
(newest-first) rows, before any rounding. -/
def rawSignals (sorted : List Row) (lookback : Nat) : RawMetrics :=
  let dates := sorted.map Row.date
  let closes := sorted.map Row.close
  let highs := sorted.map Row.high
  let vols := sorted.map fun r => (r.volume : ℚ)
  let close0 := closes.headD 0
  let volume0 := vols.headD 0
  let window_closes := closes.take lookback
  let window_highs := highs.take lookback
  let window_vols := vols.take lookback
  let high60 := listMax window_highs
  let proximity_pct := if high60 ≤ 0 then 0 else (high60 - close0) / high60 * 100
  let proximity_score := max 0 (100 - proximity_pct)
  let ret20 := if 20 < closes.length then some ((close0 / closes.getD 20 0 - 1) * 100) else none
  let vol_pct := pct_rank volume0 window_vols
  let ma20 := if 20 ≤ window_closes.length then some (listMean (window_closes.take 20)) else none
  let ma60 := if 60 ≤ window_closes.length then some (listMean (window_closes.take 60)) else none
  let above_ma20 := match ma20 with | some m => decide (m < close0) | none => false
  let trend_ma := match ma20, ma60 with | some a, some b => decide (b < a) | _, _ => false
  let ma_points := (if above_ma20 then (50 : ℚ) else 0) + (if trend_ma then (50 : ℚ) else 0)
  { date := dates.headD ""
    close0 := close0
    high60 := high60
    proximity_pct := proximity_pct
    proximity_score := proximity_score
    ret20 := ret20
    vol_pct := vol_pct
    ma20 := ma20
    ma60 := ma60
    above_ma20 := above_ma20
    trend_ma := trend_ma
    ma_points := ma_points
    score := 1 / 2 * proximity_score + 3 / 10 * normalize_ret20 ret20
      + 3 / 20 * vol_pct + 1 / 20 * ma_points }

/-- One `SignalResult` (src/apps/signals.py lines 71-76 and the `metrics`
dict of lines 128-140), with its rounded output fields. -/
structure SignalResult where
  ticker : String
  date : String
  score : ℚ
  close : ℚ
  high60 : ℚ
  proximity_pct : ℚ
  proximity_score : ℚ
  ret20_pct : Option ℚ
  vol_percentile : ℚ
  ma20 : Option ℚ
  ma60 : Option ℚ
  above_ma20 : Bool
  ma20_gt_ma60 : Bool
deriving DecidableEq, Repr

/-- Guard and output construction of `compute_signals_for_ticker`
(src/apps/signals.py lines 79-140) applied to already-sorted rows. -/
def computeFromSorted (ticker : String) (sorted : List Row) (lookback : Nat) :
    Option SignalResult :=
  let dates := sorted.map Row.date
  let closes := sorted.map Row.close
  if dates.length < lookback ∨ closes.length < lookback then none
  else
    let m := rawSignals sorted lookback
    some { ticker := ticker
           date := m.date
           score := roundTo 3 m.score
           close := m.close0
           high60 := m.high60
           proximity_pct := roundTo 2 m.proximity_pct
           proximity_score := roundTo 2 m.proximity_score
           ret20_pct := m.ret20.map (roundTo 2)
           vol_percentile := roundTo 1 m.vol_pct
           ma20 := m.ma20.map (roundTo 2)
           ma60 := m.ma60.map (roundTo 2)
           above_ma20 := m.above_ma20
           ma20_gt_ma60 := m.trend_ma }

/-- `compute_signals_for_ticker` of src/apps/signals.py on the parsed valid
rows of the ticker's CSV: sort newest-first by date, then compute and round. -/
def compute_signals_for_ticker (ticker : String) (rows : List Row) (lookback : Nat) :
    Option SignalResult :=
  computeFromSorted ticker (sortRowsDesc rows) lookback

/-- Aggregate tally of one batch run: `ok`, `fail`, and the process exit
code. -/
structure RunResult where
  okCount : Nat
  failCount : Nat
  exitCode : Nat
deriving DecidableEq, Repr

/-- Per-ticker loop of `append_stock_prices.main` (lines 130-204), abstracted
over the per-ticker outcome (`true` = the ticker's branch increments `ok`,
`false` = it increments `fail`; every branch increments exactly one of them).
The loop body starts with `if count == 3: break` followed by `count += 1`. -/
def appendMainGo : List Bool → Nat → Nat → Nat → Nat × Nat
  | [], ok, f, _count => (ok, f)
  | t :: ts, ok, f, count =>
    if count = 3 then (ok, f)
    else appendMainGo ts (if t then ok + 1 else ok) (if t then f else f + 1) (count + 1)

/-- `append_stock_prices.main` batch phase: run the ticker loop from zeroed
counters and return `0 if fail == 0 else 1` (line 207). -/
def append_stock_prices_run (outcomes : List Bool) : RunResult :=
  let p := appendMainGo outcomes 0 0 0
  { okCount := p.1, failCount := p.2, exitCode := if p.2 = 0 then 0 else 1 }

/-- Per-ticker loop of `batch_prices.main` (lines 103-120): no break, one
`ok`/`fail` increment per ticker. -/
def batchMainGo : List Bool → Nat → Nat → Nat × Nat
  | [], ok, f => (ok, f)
  | t :: ts, ok, f => batchMainGo ts (if t then ok + 1 else ok) (if t then f else f + 1)

/-- `batch_prices.main` batch phase (lines 103-123): loop, then
`0 if fail == 0 else 1`. -/
def batch_prices_run (outcomes : List Bool) : RunResult :=
  let p := batchMainGo outcomes 0 0
  { okCount := p.1, failCount := p.2, exitCode := if p.2 = 0 then 0 else 1 }

/-- One line of a persisted snapshot file: the CSV header or one bar record. -/
inductive FileLine where
  | header (cols : List String)
  | record (r : Row)
deriving DecidableEq, Repr

/-- Column list `write_csv` derives for a `Row` with the six core fields: the
preferred columns present in the first row, in preferred order
(src/apps/ls_t1305.py lines 181-195). -/
def rowCols : List String := ["date", "open", "high", "low", "close", "volume"]

/-- Observable on-disk contents of the destination during `write_csv`
(src/apps/ls_t1305.py lines 177-201), one entry per state reached: the file is
opened for writing in place (truncated to empty), then the header is written,
then the rows one by one.  With no rows the file is simply truncated. -/
def writeCsvStates (rows : List Row) : List (List FileLine) :=
  if rows = [] then [[]]
  else
    [] :: (List.range (rows.length + 1)).map
      (fun k => FileLine.header rowCols :: (rows.take k).map FileLine.record)

/-- Final on-disk contents after `write_csv` completes. -/
def writeCsvFinal (rows : List Row) : List FileLine :=
  if rows = [] then [] else FileLine.header rowCols :: rows.map FileLine.record

/-- Bar with all prices equal to `c`, used for concrete test inputs. -/
def mkBar (d : String) (c : ℚ) : Row :=
  { date := d, opn := c, high := c, low := c, close := c, volume := 1 }

/-- Existing-snapshot head row for the concrete merge examples (newest stored
date `D = 20250110`). -/
def c2First : Row := mkBar "20250110" 1

/-- Incoming catch-up window with dates `D+2, D+1, D, D-1` (newest-first),
matching the spec's append-new example. -/
def c2Incoming : List Row :=
  [mkBar "20250112" 2, mkBar "20250111" 2, mkBar "20250110" 2, mkBar "20250109" 2]

/-- Incoming catch-up window none of whose bars is newer than `D = 20250110`. -/
def c1Incoming : List Row := [mkBar "20250110" 2, mkBar "20250109" 2]

/-- Upstream response carrying a bar dated `20250102`, signalling continuation
with anchor `20250101`. -/
def c3Resp1 : T1305Response :=
  { rspCd := "", rspMsg := "", outDate := some "20250101",
    rows := [mkBar "20250102" 10], hTrCont := "Y", hTrContKey := "k1" }

/-- Follow-up response whose page repeats the date `20250102`. -/
def c3Resp2 : T1305Response :=
  { rspCd := "", rspMsg := "", outDate := none,
    rows := [mkBar "20250102" 11], hTrCont := "N", hTrContKey := "" }

/-- Non-overlapping newest-first pages: two bars then one strictly older bar. -/
def c3GoodResp1 : T1305Response :=
  { rspCd := "", rspMsg := "", outDate := some "20250102",
    rows := [mkBar "20250104" 1, mkBar "20250103" 1], hTrCont := "Y", hTrContKey := "k" }

/-- Final non-overlapping page. -/
def c3GoodResp2 : T1305Response :=
  { rspCd := "", rspMsg := "", outDate := none,
    rows := [mkBar "20250102" 1], hTrCont := "N", hTrContKey := "" }

/-- Default request value used with `List.getD` on request traces. -/
def reqDefault : T1305Request := { date := "", cnt := 0, trCont := "", trContKey := "" }

/-- Response that always signals continuation with a usable anchor but carries
an empty page: the loop state it produces is identical to the state it was
produced from. -/
def c5BadResp : T1305Response :=
  { rspCd := "", rspMsg := "", outDate := some "20250101", rows := [],
    hTrCont := "Y", hTrContKey := "k" }

/-- Loop state reached after the first `c5BadResp`; `fetchStep` maps it back to
itself on every further `c5BadResp`. -/
def c5BadState : FetchState :=
  { total := [], nextDate := "20250101", trCont := "Y", trContKey := "k" }

/-- Statement that the fetch loop fed the constant stream of `c5BadResp`
answers never stops, however many responses it is given. -/
def c5RunsForever : Prop :=
  ∀ n : Nat, (fetch_t1305 (List.replicate n c5BadResp) 5).2 = FetchOutcome.needMore

/-- Response signalling continuation whose `t1305OutBlock` carries an empty
`date` cursor. -/
def c5EmptyCursorResp : T1305Response :=
  { rspCd := "", rspMsg := "", outDate := some "", rows := [],
    hTrCont := "Y", hTrContKey := "k" }

/-- Response signalling continuation whose `t1305OutBlock` has no `date` key at
all (so `out.get("date", next_date)` keeps the initial empty anchor). -/
def c5AbsentCursorResp : T1305Response :=
  { rspCd := "", rspMsg := "", outDate := none, rows := [],
    hTrCont := "Y", hTrContKey := "k" }

/-- Sixty daily bars realizing the spec's end-to-end scoring example:
newest close 70000, window high 75000, a 20-day-ago close of 700000/11 (so the
20-day return is exactly +10%), 48 of 60 volumes at or below today's volume,
and moving averages with close > ma20 > ma60. -/
def c6Rows : List Row :=
  (List.range 60).map fun i =>
    { date := toString (99999999 - i)
      opn := 0
      high := if i = 0 then 75000 else 70000
      low := 0
      close := if i = 0 then 70000 else if i < 20 then 60000
               else if i = 20 then 700000 / 11 else 50000
      volume := if i = 0 then 100 else if i < 48 then 50 else 200 }

/-- Sixty flat bars whose newest volume is strictly the smallest, so that the
raw volume percentile is 100/60 = 5/3, a value on which rounding to 1 versus 2
decimal places differs. -/
def c7Rows : List Row :=
  (List.range 60).map fun i =>
    { date := toString (99999999 - i)
      opn := 0
      high := 100
      low := 0
      close := 100
      volume := if i = 0 then 1 else 100 }

/-- The SignalResult the engine produces on `c7Rows`. -/
def c7Result : SignalResult :=
  { ticker := "X", date := "99999999", score := 261 / 4, close := 100
    high60 := 100, proximity_pct := 0, proximity_score := 100
    ret20_pct := some 0, vol_percentile := 17 / 10, ma20 := some 100
    ma60 := some 100, above_ma20 := false, ma20_gt_ma60 := false }

/-- Two-row inputs for the order-independence witness. -/
def c10RowA : Row := mkBar "20250102" 5

/-- Second row, older date, different close. -/
def c10RowB : Row := mkBar "20250101" 9

/-- Prior on-disk snapshot contents in the write-atomicity example. -/
def c9Old : List FileLine :=
  [FileLine.header rowCols, FileLine.record (mkBar "20250101" 1)]

/-- Rows being written in the write-atomicity example. -/
def c9Rows : List Row := [mkBar "20250102" 1, mkBar "20250101" 1]

set_option maxRecDepth 100000

section

attribute [local semireducible] Rat.mul Rat.inv Rat.add Rat.sub Rat.ofScientific

/-- Lexicographic comparison is irreflexive. -/
lemma listCharLt_irrefl : ∀ as, listCharLt as as = false := by
  intro as
  induction as with
  | nil => rfl
  | cons a as ih => simp [listCharLt, ih]

/-- Lexicographic comparison is asymmetric. -/
lemma listCharLt_asymm : ∀ as bs, listCharLt as bs = true → listCharLt bs as = false := by
  intro as
  induction as with
  | nil =>
    intro bs h
    cases bs with
    | nil => simp [listCharLt] at h
    | cons b bs => simp [listCharLt]
  | cons a as ih =>
    intro bs h
    cases bs with
    | nil => simp [listCharLt] at h
    | cons b bs =>
      simp only [listCharLt] at h ⊢
      rcases Nat.lt_trichotomy a.toNat b.toNat with h1 | h1 | h1
      · rw [if_neg (Nat.lt_asymm h1), if_pos h1]
      · rw [if_neg (by omega), if_neg (by omega)] at h ⊢
        exact ih bs h
      · rw [if_neg (Nat.lt_asymm h1), if_pos h1] at h
        exact absurd h (by simp)

/-- Lexicographic comparison is transitive. -/
lemma listCharLt_trans :
    ∀ as bs cs, listCharLt as bs = true → listCharLt bs cs = true →
      listCharLt as cs = true := by
  intro as
  induction as with
  | nil =>
    intro bs cs h1 h2
    cases bs with
    | nil => simp [listCharLt] at h1
    | cons b bs =>
      cases cs with
      | nil => simp [listCharLt] at h2
      | cons c cs => simp [listCharLt]
  | cons a as ih =>
    intro bs cs h1 h2
    cases bs with
    | nil => simp [listCharLt] at h1
    | cons b bs =>
      cases cs with
      | nil => simp [listCharLt] at h2
      | cons c cs =>
        simp only [listCharLt] at h1 h2 ⊢
        rcases Nat.lt_trichotomy a.toNat b.toNat with hab | hab | hab <;>
          rcases Nat.lt_trichotomy b.toNat c.toNat with hbc | hbc | hbc
        all_goals first
          | (rw [if_pos (by omega)])
          | (rw [if_neg (by omega), if_neg (by omega)]
             rw [if_neg (by omega), if_neg (by omega)] at h1
             rw [if_neg (by omega), if_neg (by omega)] at h2
             exact ih bs cs h1 h2)
          | (exfalso
             first
               | (rw [if_neg (by omega), if_pos (by omega)] at h1; exact absurd h1 (by simp))
               | (rw [if_neg (by omega), if_pos (by omega)] at h2; exact absurd h2 (by simp)))

/-- Two lists neither of which is lexicographically smaller are equal. -/
lemma listCharLt_eq_of_not :
    ∀ as bs, listCharLt as bs = false → listCharLt bs as = false → as = bs := by
  intro as
  induction as with
  | nil =>
    intro bs h1 _h2
    cases bs with
    | nil => rfl
    | cons b bs => exact absurd h1 (by simp [listCharLt])
  | cons a as ih =>
    intro bs h1 h2
    cases bs with
    | nil => exact absurd h2 (by simp [listCharLt])
    | cons b bs =>
      simp only [listCharLt] at h1 h2
      rcases Nat.lt_trichotomy a.toNat b.toNat with h3 | h3 | h3
      · rw [if_pos h3] at h1; exact absurd h1 (by simp)
      · rw [if_neg (by omega), if_neg (by omega)] at h1 h2
        have hc : a = b := Char.ext (UInt32.toNat.inj h3)
        rw [hc, ih bs h1 h2]
      · rw [if_pos h3] at h2; exact absurd h2 (by simp)

/-- String-level asymmetry of the Python comparison. -/
lemma strLt_asymm (a b : String) (h : strLt a b = true) : strLt b a = false :=
  listCharLt_asymm a.data b.data h

/-- Strings neither of which is smaller are equal. -/
lemma strLt_eq_of_not (a b : String) (h1 : strLt a b = false) (h2 : strLt b a = false) :
    a = b :=
  String.ext (listCharLt_eq_of_not a.data b.data h1 h2)

/-- Transitivity of the non-strict (negated strict) string comparison. -/
lemma strLt_le_trans (a b c : String) (h1 : strLt a b = false) (h2 : strLt b c = false) :
    strLt a c = false := by
  cases hac : strLt a c with
  | false => rfl
  | true =>
    exfalso
    cases hba : strLt b a with
    | false =>
      have hab : a = b := strLt_eq_of_not a b h1 hba
      rw [hab] at hac
      exact absurd hac (by simp [h2])
    | true =>
      have hbc : strLt b c = true := listCharLt_trans b.data a.data c.data hba hac
      exact absurd hbc (by simp [h2])

/-- Claim C1 — idempotence of the incremental sync: if the existing snapshot
has a newest stored date and no incoming catch-up bar is strictly newer, the
update branch of `append_stock_prices.main` performs no write (`skip`), the
stored snapshot is unchanged, and running the update twice gives the same
snapshot as running it once. -/
theorem appendNew_noop_and_idempotent (first : Row) (rest incoming fresh : List Row)
    (hdate : first.date ≠ "")
    (hnone : ∀ r ∈ incoming, strLt first.date r.date = false) :
    updateExisting (first :: rest) incoming = .skip ∧
    applyUpdate fresh (first :: rest) incoming = first :: rest ∧
    applyUpdate fresh (applyUpdate fresh (first :: rest) incoming) incoming
      = applyUpdate fresh (first :: rest) incoming := by
  have hfilter : rowsToAdd first.date incoming = [] := by
    rw [rowsToAdd, List.filter_eq_nil_iff]
    intro r hr
    simp [hnone r hr]
  have hskip : updateExisting (first :: rest) incoming = .skip := by
    simp only [updateExisting, List.head?, Option.map, Option.getD]
    rw [if_neg hdate, hfilter, if_pos rfl]
  have happly : applyUpdate fresh (first :: rest) incoming = first :: rest := by
    rw [applyUpdate, hskip]
  refine ⟨hskip, happly, ?_⟩
  rw [happly, happly]

/-- Witness for C1 at a concrete snapshot and catch-up window. -/
theorem appendNew_noop_and_idempotent_witness :
    (c2First.date ≠ "" ∧ ∀ r ∈ c1Incoming, strLt c2First.date r.date = false) ∧
    updateExisting (c2First :: [mkBar "20250109" 1]) c1Incoming = .skip := by
  refine ⟨⟨by decide, by decide⟩, ?_⟩
  exact (appendNew_noop_and_idempotent c2First [mkBar "20250109" 1] c1Incoming []
    (by decide) (by decide)).1

/-- Claim C2 — append-new merge correctness: the merged-in rows are exactly the
incoming bars strictly newer than the stored newest date, kept in fetched
order (a sublist of the incoming window, with exact multiplicity), and the
update branch prepends them in front of the untouched existing rows, or skips
(no write) when there are none. -/
theorem appendNew_merge_correct (first : Row) (rest incoming : List Row)
    (hdate : first.date ≠ "") :
    List.Sublist (rowsToAdd first.date incoming) incoming ∧
    (∀ r ∈ rowsToAdd first.date incoming, strLt first.date r.date = true) ∧
    (∀ r ∈ incoming, strLt first.date r.date = true → r ∈ rowsToAdd first.date incoming) ∧
    (∀ r : Row, (rowsToAdd first.date incoming).count r
      = if strLt first.date r.date = true then incoming.count r else 0) ∧
    (rowsToAdd first.date incoming = [] →
      updateExisting (first :: rest) incoming = .skip) ∧
    (rowsToAdd first.date incoming ≠ [] →
      updateExisting (first :: rest) incoming
        = .write (rowsToAdd first.date incoming ++ (first :: rest))) := by
  refine ⟨List.filter_sublist incoming, ?_, ?_, ?_, ?_, ?_⟩
  · intro r hr
    exact (List.mem_filter.mp hr).2
  · intro r hr hnew
    exact List.mem_filter.mpr ⟨hr, hnew⟩
  · intro r
    by_cases hnew : strLt first.date r.date = true
    · rw [if_pos hnew]
      exact List.count_filter hnew
    · rw [if_neg hnew]
      rw [List.count_eq_zero]
      intro hmem
      exact hnew (List.mem_filter.mp hmem).2
  · intro hnil
    simp only [updateExisting, List.head?, Option.map, Option.getD]
    rw [if_neg hdate, hnil, if_pos rfl]
  · intro hne
    simp only [updateExisting, List.head?, Option.map, Option.getD]
    rw [if_neg hdate, if_neg hne]

/-- Witness for C2: with stored newest date `D = 20250110` and incoming dates
`D+2, D+1, D, D-1`, the update writes exactly the `D+2` and `D+1` bars
prepended in front of the untouched existing rows. -/
theorem appendNew_merge_correct_witness :
    c2First.date ≠ "" ∧
    rowsToAdd c2First.date c2Incoming = [mkBar "20250112" 2, mkBar "20250111" 2] ∧
    updateExisting (c2First :: [mkBar "20250109" 1]) c2Incoming
      = .write ([mkBar "20250112" 2, mkBar "20250111" 2] ++ (c2First :: [mkBar "20250109" 1])) := by
  have hfilter : rowsToAdd c2First.date c2Incoming
      = [mkBar "20250112" 2, mkBar "20250111" 2] := by decide
  refine ⟨by decide, hfilter, ?_⟩
  have h := (appendNew_merge_correct c2First [mkBar "20250109" 1] c2Incoming
    (by decide)).2.2.2.2.2 (by decide)
  rw [hfilter] at h
  exact h

/-- Claim C8 — the batch loop of `append_stock_prices.main` contains a leftover
`if count == 3: break`: a batch of four tickers, every one of which would
succeed, is tallied as only 3 processed (the fourth is never touched) and the
run still exits 0; the loop of `batch_prices.main` processes all four and its
exit code is nonzero exactly when some ticker failed. -/
theorem append_main_stops_after_three :
    append_stock_prices_run [true, true, true, true]
      = { okCount := 3, failCount := 0, exitCode := 0 } ∧
    (append_stock_prices_run [true, true, true, true]).okCount
      + (append_stock_prices_run [true, true, true, true]).failCount ≠ 4 ∧
    batch_prices_run [true, true, true, true]
      = { okCount := 4, failCount := 0, exitCode := 0 } ∧
    batch_prices_run [true, false, true, true]
      = { okCount := 3, failCount := 1, exitCode := 1 } := by
  refine ⟨by decide, by decide, by decide, by decide⟩

/-- Claim C9 counterexample — `write_csv` is not atomic: while writing a
two-row snapshot over a nonempty prior snapshot, the empty file (the state
right after `open(path, "w")` truncates the destination) is an observable
on-disk state that equals neither the prior snapshot nor the final one. -/
theorem write_csv_not_atomic_counterexample :
    ([] : List FileLine) ∈ writeCsvStates c9Rows ∧
    (writeCsvStates c9Rows).head? = some [] ∧
    ([] : List FileLine) ≠ c9Old ∧
    ([] : List FileLine) ≠ writeCsvFinal c9Rows := by
  refine ⟨by decide, by decide, by decide, by decide⟩

/-- Claim C9 amended — for every nonempty row list written over any nonempty
prior contents, the truncated (empty) state is observable during `write_csv`,
is the first state reached, and differs from both the prior and the final
contents: a failure right after the open destroys the prior snapshot and a
concurrent reader can observe a partially written one. -/
theorem write_csv_truncates_in_place (rows : List Row) (old : List FileLine)
    (hrows : rows ≠ []) (hold : old ≠ []) :
    ([] : List FileLine) ∈ writeCsvStates rows ∧
    (writeCsvStates rows).head? = some [] ∧
    ([] : List FileLine) ≠ old ∧
    ([] : List FileLine) ≠ writeCsvFinal rows := by
  refine ⟨?_, ?_, ?_, ?_⟩
  · rw [writeCsvStates, if_neg hrows]
    exact List.mem_cons_self _ _
  · rw [writeCsvStates, if_neg hrows]
    rfl
  · exact fun h => hold h.symm
  · rw [writeCsvFinal, if_neg hrows]
    exact fun h => List.cons_ne_nil _ _ h.symm

/-- Witness for the amended C9 at concrete contents. -/
theorem write_csv_truncates_in_place_witness :
    (c9Rows ≠ [] ∧ c9Old ≠ []) ∧ ([] : List FileLine) ∈ writeCsvStates c9Rows := by
  refine ⟨⟨by decide, by decide⟩, ?_⟩
  exact (write_csv_truncates_in_place c9Rows c9Old (by decide) (by decide)).1

end

section

attribute [local semireducible] Rat.mul Rat.inv Rat.add Rat.sub Rat.ofScientific

/-- Inserting is a permutation of consing. -/
lemma insertRowDesc_perm (r : Row) (l : List Row) : (insertRowDesc r l).Perm (r :: l) := by
  induction l with
  | nil => exact List.Perm.refl _
  | cons x xs ih =>
    simp only [insertRowDesc]
    cases hb : strLt r.date x.date with
    | true =>
      simp only [if_true]
      exact (ih.cons x).trans (List.Perm.swap r x xs)
    | false =>
      simp only [Bool.false_eq_true, if_false]
      exact List.Perm.refl _

/-- The stable descending sort is a permutation of its input. -/
lemma sortRowsDesc_perm (l : List Row) : (sortRowsDesc l).Perm l := by
  induction l with
  | nil => exact List.Perm.refl _
  | cons x xs ih =>
    exact (insertRowDesc_perm x (sortRowsDesc xs)).trans (ih.cons x)

/-- Inserting preserves the descending (non-strict) ordering. -/
lemma insertRowDesc_sorted (r : Row) (l : List Row)
    (h : l.Pairwise fun a b => strLt a.date b.date = false) :
    (insertRowDesc r l).Pairwise fun a b => strLt a.date b.date = false := by
  induction l with
  | nil => simp [insertRowDesc]
  | cons x xs ih =>
    rcases List.pairwise_cons.mp h with ⟨hx, hxs⟩
    simp only [insertRowDesc]
    cases hb : strLt r.date x.date with
    | true =>
      simp only [if_true]
      refine List.pairwise_cons.mpr ⟨?_, ih hxs⟩
      intro y hy
      rcases List.mem_cons.mp ((insertRowDesc_perm r xs).mem_iff.mp hy) with hyr | hyxs
      · rw [hyr]
        exact strLt_asymm _ _ hb
      · exact hx y hyxs
    | false =>
      simp only [Bool.false_eq_true, if_false]
      refine List.pairwise_cons.mpr ⟨?_, h⟩
      intro y hy
      rcases List.mem_cons.mp hy with hyx | hyxs
      · rw [hyx]; exact hb
      · exact strLt_le_trans _ _ _ hb (hx y hyxs)

/-- The sort output is descending by date (non-strict). -/
lemma sortRowsDesc_sorted (l : List Row) :
    (sortRowsDesc l).Pairwise fun a b => strLt a.date b.date = false := by
  induction l with
  | nil => simp [sortRowsDesc]
  | cons x xs ih => exact insertRowDesc_sorted x (sortRowsDesc xs) ih

/-- Descending plus pairwise-distinct dates gives strictly descending. -/
lemma pairwise_gt_of_ge_nodup (l : List Row)
    (hge : l.Pairwise fun a b => strLt a.date b.date = false)
    (hnd : (l.map Row.date).Nodup) :
    l.Pairwise fun a b => strLt b.date a.date = true := by
  have hne : l.Pairwise fun a b => a.date ≠ b.date := List.pairwise_map.mp hnd
  refine (hge.and hne).imp ?_
  intro a b hab
  cases hba : strLt b.date a.date with
  | true => rfl
  | false => exact absurd (strLt_eq_of_not _ _ hab.1 hba) hab.2

/-- Strictly descending lists that are permutations of each other are equal. -/
lemma eq_of_perm_sorted_strict (l1 l2 : List Row) (hp : l1.Perm l2)
    (h1 : l1.Pairwise fun a b => strLt b.date a.date = true)
    (h2 : l2.Pairwise fun a b => strLt b.date a.date = true) : l1 = l2 := by
  haveI : IsAntisymm Row (fun a b => strLt b.date a.date = true) :=
    ⟨fun a b hab hba => absurd hba (by simp [strLt_asymm _ _ hab])⟩
  exact List.eq_of_perm_of_sorted hp h1 h2

/-- Claim C10 — stored-order independence of the signal engine: the engine
sorts the parsed rows descending by date before computing anything, so on
inputs whose rows have pairwise-distinct dates, every permutation of the rows
produces exactly the same SignalResult. -/
theorem signals_order_independent (t : String) (rows rows2 : List Row) (lb : Nat)
    (hperm : rows.Perm rows2) (hnd : (rows.map Row.date).Nodup) :
    compute_signals_for_ticker t rows lb = compute_signals_for_ticker t rows2 lb := by
  have hnd2 : (rows2.map Row.date).Nodup := ((hperm.map Row.date).nodup_iff).mp hnd
  have hs : sortRowsDesc rows = sortRowsDesc rows2 := by
    refine eq_of_perm_sorted_strict _ _
      ((sortRowsDesc_perm rows).trans (hperm.trans (sortRowsDesc_perm rows2).symm)) ?_ ?_
    · exact pairwise_gt_of_ge_nodup _ (sortRowsDesc_sorted rows)
        (((sortRowsDesc_perm rows).map Row.date).nodup_iff.mpr hnd)
    · exact pairwise_gt_of_ge_nodup _ (sortRowsDesc_sorted rows2)
        (((sortRowsDesc_perm rows2).map Row.date).nodup_iff.mpr hnd2)
  rw [compute_signals_for_ticker, compute_signals_for_ticker, hs]

/-- Witness for C10: swapping two rows with distinct dates leaves the computed
SignalResult unchanged. -/
theorem signals_order_independent_witness :
    (([c10RowA, c10RowB] : List Row).Perm [c10RowB, c10RowA] ∧
      ([c10RowA, c10RowB].map Row.date).Nodup) ∧
    compute_signals_for_ticker "X" [c10RowA, c10RowB] 2
      = compute_signals_for_ticker "X" [c10RowB, c10RowA] 2 := by
  refine ⟨⟨List.Perm.swap _ _ _, by decide⟩, ?_⟩
  exact signals_order_independent "X" [c10RowA, c10RowB] [c10RowB, c10RowA] 2
    (List.Perm.swap _ _ _) (by decide)

end

section

attribute [local semireducible] Rat.mul Rat.inv Rat.add Rat.sub Rat.ofScientific

/-- Every `stop` of the loop body returns the accumulator truncated to `cnt`. -/
lemma fetchStep_stop_eq (cnt : Nat) (s : FetchState) (r : T1305Response) (bars : List Row)
    (h : fetchStep cnt s r = StepRes.stop bars) :
    bars = (s.total ++ r.rows).take cnt := by
  simp only [fetchStep] at h
  split at h
  · exact absurd h (by simp)
  · split at h
    · exact (StepRes.stop.inj h).symm
    · split at h
      · split at h
        · exact (StepRes.stop.inj h).symm
        · exact absurd h (by simp)
      · exact (StepRes.stop.inj h).symm

/-- A continuing step extends the accumulator by the page and only happens
while the accumulator is still short of `cnt`. -/
lemma fetchStep_again_inv (cnt : Nat) (s : FetchState) (r : T1305Response) (s2 : FetchState)
    (h : fetchStep cnt s r = StepRes.again s2) :
    s2.total = s.total ++ r.rows ∧ (s.total ++ r.rows).length < cnt := by
  simp only [fetchStep] at h
  split at h
  · exact absurd h (by simp)
  · split at h
    · exact absurd h (by simp)
    · rename_i hlen
      split at h
      · split at h
        · exact absurd h (by simp)
        · have h2 := StepRes.again.inj h
          subst h2
          exact ⟨rfl, by omega⟩
      · exact absurd h (by simp)

/-- Whatever it returns, the loop returns a prefix of the concatenation of the
supplied pages appended to the starting accumulator. -/
lemma fetchGo_done_isPre (cnt : Nat) :
    ∀ (rs : List T1305Response) (s : FetchState) (out : List Row),
      (fetchGo cnt s rs).2 = FetchOutcome.done out →
      out <+: s.total ++ (rs.map T1305Response.rows).flatten := by
  intro rs
  induction rs with
  | nil =>
    intro s out h
    simp [fetchGo] at h
  | cons r rest ih =>
    intro s out h
    cases hstep : fetchStep cnt s r with
    | stop bars =>
      simp only [fetchGo, hstep] at h
      have hb : bars = out := by simpa using h
      rw [← hb, fetchStep_stop_eq cnt s r bars hstep]
      have h1 : (s.total ++ r.rows).take cnt <+: s.total ++ r.rows :=
        List.take_prefix cnt _
      have h2 : s.total ++ r.rows <+:
          (s.total ++ r.rows) ++ (rest.map T1305Response.rows).flatten :=
        List.prefix_append _ _
      simpa [List.append_assoc] using h1.trans h2
    | fail c m =>
      simp only [fetchGo, hstep] at h
      simp at h
    | again s2 =>
      simp only [fetchGo, hstep] at h
      have h3 := ih s2 out h
      rw [(fetchStep_again_inv cnt s r s2 hstep).1] at h3
      simpa [List.append_assoc] using h3

/-- The loop never returns more than `cnt` rows. -/
lemma fetchGo_done_length (cnt : Nat) :
    ∀ (rs : List T1305Response) (s : FetchState) (out : List Row),
      (fetchGo cnt s rs).2 = FetchOutcome.done out → out.length ≤ cnt := by
  intro rs
  induction rs with
  | nil =>
    intro s out h
    simp [fetchGo] at h
  | cons r rest ih =>
    intro s out h
    cases hstep : fetchStep cnt s r with
    | stop bars =>
      simp only [fetchGo, hstep] at h
      have hb : bars = out := by simpa using h
      rw [← hb, fetchStep_stop_eq cnt s r bars hstep]
      simp [List.length_take]
    | fail c m =>
      simp only [fetchGo, hstep] at h
      simp at h
    | again s2 =>
      simp only [fetchGo, hstep] at h
      exact ih s2 out h

/-- No rows are accumulated before the first request. -/
lemma accumBefore_zero (rs : List T1305Response) : accumBefore rs 0 = 0 := by
  simp [accumBefore]

/-- Unfolding of the accumulated count over the first consumed response. -/
lemma accumBefore_cons_succ (r : T1305Response) (rest : List T1305Response) (k : Nat) :
    accumBefore (r :: rest) (k + 1) = r.rows.length + accumBefore rest k := by
  simp [accumBefore, List.take_succ_cons]

/-- Shape of the k-th issued request: its `cnt` field is
`max(1, min(cnt - accumulated, cnt))` for the rows accumulated before it, the
first request carries the starting anchor, and every request after the first
is only issued while the accumulator is still short of `cnt`. -/
lemma fetchGo_trace (cnt : Nat) :
    ∀ (rs : List T1305Response) (s : FetchState) (k : Nat),
      k < (fetchGo cnt s rs).1.length →
      (((fetchGo cnt s rs).1.getD k reqDefault).cnt
          = max 1 (min (cnt - (s.total.length + accumBefore rs k)) cnt)) ∧
      (k = 0 → ((fetchGo cnt s rs).1.getD k reqDefault).date = s.nextDate) ∧
      (0 < k → s.total.length + accumBefore rs k < cnt) := by
  intro rs
  induction rs with
  | nil =>
    intro s k hk
    simp [fetchGo] at hk
  | cons r rest ih =>
    intro s k hk
    cases hstep : fetchStep cnt s r with
    | stop bars =>
      simp only [fetchGo, hstep] at hk ⊢
      have hk0 : k = 0 := by simpa using hk
      subst hk0
      refine ⟨?_, fun _ => rfl, fun h0 => absurd h0 (by omega)⟩
      simp [mkRequest, accumBefore_zero]
    | fail c m =>
      simp only [fetchGo, hstep] at hk ⊢
      have hk0 : k = 0 := by simpa using hk
      subst hk0
      refine ⟨?_, fun _ => rfl, fun h0 => absurd h0 (by omega)⟩
      simp [mkRequest, accumBefore_zero]
    | again s2 =>
      simp only [fetchGo, hstep] at hk ⊢
      have hinv := fetchStep_again_inv cnt s r s2 hstep
      cases k with
      | zero =>
        refine ⟨?_, fun _ => rfl, fun h0 => absurd h0 (by omega)⟩
        simp [mkRequest, accumBefore_zero]
      | succ k =>
        have hk2 : k < (fetchGo cnt s2 rest).1.length := by
          simpa using hk
        obtain ⟨ha, hb, hc⟩ := ih s2 k hk2
        have harg : s2.total.length + accumBefore rest k
            = s.total.length + accumBefore (r :: rest) (k + 1) := by
          rw [hinv.1, List.length_append, accumBefore_cons_succ]
          omega
        refine ⟨?_, ?_, ?_⟩
        · rw [List.getD_cons_succ, ha, harg]
        · intro h0
          exact absurd h0 (by omega)
        · intro _
          rcases Nat.eq_zero_or_pos k with hk0 | hkpos
          · subst hk0
            have h2 := hinv.2
            rw [List.length_append] at h2
            rw [accumBefore_cons_succ, accumBefore_zero]
            omega
          · have h2 := hc hkpos
            rw [harg] at h2
            exact h2

/-- Claim C3 counterexample — the fetcher does not deduplicate: an upstream
page sequence whose pages repeat the date 20250102 passes through verbatim,
so the returned bar sequence has a duplicate date. -/
theorem fetch_t1305_duplicate_dates_counterexample :
    (fetch_t1305 [c3Resp1, c3Resp2] 5).2
      = FetchOutcome.done [mkBar "20250102" 10, mkBar "20250102" 11] ∧
    ¬ (([mkBar "20250102" 10, mkBar "20250102" 11].map Row.date).Nodup) := by
  refine ⟨by decide, by decide⟩

/-- Claim C3 amended — the fetcher returns a prefix of the concatenation of
the upstream pages in arrival order, with no deduplication or reordering of
its own; the result is newest-first with no duplicate dates exactly when the
concatenated upstream pages already are strictly descending by date. -/
theorem fetch_t1305_returns_page_concat (rs : List T1305Response) (cnt : Nat)
    (out : List Row) (h : (fetch_t1305 rs cnt).2 = FetchOutcome.done out) :
    out <+: (rs.map T1305Response.rows).flatten ∧
    ((rs.map T1305Response.rows).flatten.Pairwise
        (fun a b => strLt b.date a.date = true) →
      out.Pairwise (fun a b => strLt b.date a.date = true) ∧
        (out.map Row.date).Nodup) := by
  have hpre := fetchGo_done_isPre cnt rs initFetchState out h
  simp only [initFetchState, List.nil_append] at hpre
  refine ⟨hpre, ?_⟩
  intro hdesc
  have hp := List.Pairwise.sublist hpre.sublist hdesc
  refine ⟨hp, ?_⟩
  have hne : out.Pairwise fun a b => a.date ≠ b.date := by
    refine hp.imp ?_
    intro a b hab heq
    rw [heq] at hab
    exact absurd hab (by simp [strLt, listCharLt_irrefl])
  exact List.pairwise_map.mpr hne

/-- Witness for the amended C3: non-overlapping newest-first pages yield a
strictly-descending, duplicate-free result. -/
theorem fetch_t1305_returns_page_concat_witness :
    (fetch_t1305 [c3GoodResp1, c3GoodResp2] 5).2
      = FetchOutcome.done [mkBar "20250104" 1, mkBar "20250103" 1, mkBar "20250102" 1] ∧
    ([mkBar "20250104" 1, mkBar "20250103" 1, mkBar "20250102" 1].map Row.date).Nodup := by
  refine ⟨by decide, ?_⟩
  exact ((fetch_t1305_returns_page_concat [c3GoodResp1, c3GoodResp2] 5
    [mkBar "20250104" 1, mkBar "20250103" 1, mkBar "20250102" 1] (by decide)).2
    (by decide)).2

/-- Claim C4 — truncation and page sizing: for requested count `cnt ≥ 1`, a
completed fetch returns at most `cnt` bars; every issued request is for the
remaining `cnt` minus the rows already accumulated (which is always below
`cnt` when a request goes out), and the first request carries the empty anchor
cursor. -/
theorem fetch_t1305_truncation_page_sizing (rs : List T1305Response) (cnt : Nat)
    (hcnt : 1 ≤ cnt) :
    (∀ out, (fetch_t1305 rs cnt).2 = FetchOutcome.done out → out.length ≤ cnt) ∧
    (∀ k, k < (fetch_t1305 rs cnt).1.length →
      accumBefore rs k < cnt ∧
      ((fetch_t1305 rs cnt).1.getD k reqDefault).cnt = cnt - accumBefore rs k ∧
      (k = 0 → ((fetch_t1305 rs cnt).1.getD k reqDefault).date = "")) := by
  constructor
  · intro out h
    exact fetchGo_done_length cnt rs initFetchState out h
  · intro k hk
    simp only [fetch_t1305] at hk ⊢
    obtain ⟨ha, hb, hc⟩ := fetchGo_trace cnt rs initFetchState k hk
    have hbound : accumBefore rs k < cnt := by
      rcases Nat.eq_zero_or_pos k with h0 | hpos
      · subst h0
        rw [accumBefore_zero]
        omega
      · have h2 := hc hpos
        simpa [initFetchState] using h2
    refine ⟨hbound, ?_, ?_⟩
    · rw [ha]
      simp only [initFetchState, List.length_nil, Nat.zero_add]
      have h1 : min (cnt - accumBefore rs k) cnt = cnt - accumBefore rs k :=
        Nat.min_eq_left (Nat.sub_le _ _)
      rw [h1]
      exact Nat.max_eq_right (by omega)
    · intro h0
      exact hb h0

/-- Witness for C4: with two pages of 2 and 1 rows and `cnt = 5`, the second
request asks for the remaining 3 rows. -/
theorem fetch_t1305_truncation_page_sizing_witness :
    (1 ≤ 5) ∧
    ((fetch_t1305 [c3GoodResp1, c3GoodResp2] 5).1.getD 1 reqDefault).cnt
      = 5 - accumBefore [c3GoodResp1, c3GoodResp2] 1 := by
  refine ⟨by decide, ?_⟩
  exact ((fetch_t1305_truncation_page_sizing [c3GoodResp1, c3GoodResp2] 5
    (by decide)).2 1 (by decide)).2.1

/-- A step on the always-continuing empty-page response maps `c5BadState` back
to itself. -/
lemma c5_fixed_point : fetchStep 5 c5BadState c5BadResp = StepRes.again c5BadState := by
  decide

/-- From `c5BadState`, any number of `c5BadResp` answers leaves the loop still
asking for more. -/
lemma c5_go_needMore :
    ∀ n, (fetchGo 5 c5BadState (List.replicate n c5BadResp)).2 = FetchOutcome.needMore := by
  intro n
  induction n with
  | zero => rfl
  | succ n ih =>
    rw [List.replicate_succ]
    simp only [fetchGo, c5_fixed_point]
    exact ih

/-- Claim C5 counterexample — the loop does not terminate for every upstream
behaviour: a response with the continuation flag set, a non-empty next-date
cursor and an empty page maps the loop state to itself, so however many such
responses the upstream supplies, the fetch never stops. -/
theorem fetch_loop_nontermination_counterexample :
    fetchStep 5 c5BadState c5BadResp = StepRes.again c5BadState ∧ c5RunsForever := by
  refine ⟨c5_fixed_point, ?_⟩
  intro n
  cases n with
  | zero => rfl
  | succ n =>
    rw [List.replicate_succ]
    have hfirst : fetchStep 5 initFetchState c5BadResp = StepRes.again c5BadState := by
      decide
    simp only [fetch_t1305, fetchGo, hfirst]
    exact c5_go_needMore n

/-- Claim C5 amended — when the first response signals continuation but its
cursor is empty (or the `date` key is absent so the empty initial anchor is
kept), the fetch issues exactly one page request and stops, returning normally
(end-of-data, not an error), whatever the upstream would have answered next
and for every requested count. -/
theorem fetch_empty_cursor_one_page (rest : List T1305Response) (cnt : Nat) :
    ((fetch_t1305 (c5EmptyCursorResp :: rest) cnt).1.length = 1 ∧
      (fetch_t1305 (c5EmptyCursorResp :: rest) cnt).2 = FetchOutcome.done []) ∧
    ((fetch_t1305 (c5AbsentCursorResp :: rest) cnt).1.length = 1 ∧
      (fetch_t1305 (c5AbsentCursorResp :: rest) cnt).2 = FetchOutcome.done []) := by
  have hstep1 : fetchStep cnt initFetchState c5EmptyCursorResp = StepRes.stop [] := by
    cases cnt with
    | zero => decide
    | succ n =>
      simp only [fetchStep, c5EmptyCursorResp, initFetchState]
      norm_num
  have hstep2 : fetchStep cnt initFetchState c5AbsentCursorResp = StepRes.stop [] := by
    cases cnt with
    | zero => decide
    | succ n =>
      simp only [fetchStep, c5AbsentCursorResp, initFetchState]
      norm_num
  constructor
  · constructor
    · simp only [fetch_t1305, fetchGo, hstep1]
      rfl
    · simp only [fetch_t1305, fetchGo, hstep1]
  · constructor
    · simp only [fetch_t1305, fetchGo, hstep2]
      rfl
    · simp only [fetch_t1305, fetchGo, hstep2]

end

section

attribute [local semireducible] Rat.mul Rat.inv Rat.add Rat.sub Rat.ofScientific

/-- Claim C6 counterexample — the end-to-end example's composite score: on 60
bars with newest close 70000, window high 75000, a 20-day return of exactly
10% (normalized 75), volume percentile 80 and full trend points, the engine
reports proximity_pct 6.67 and proximity_score 93.33 as the spec says, but the
composite score it reports is 86.167, not 86.165: the score is computed from
the unrounded proximity score 280/3, not from the rounded 93.33. -/
theorem signals_example_score_counterexample :
    compute_signals_for_ticker "005930" c6Rows 60
      = some { ticker := "005930", date := "99999999", score := 86167 / 1000
               close := 70000, high60 := 75000, proximity_pct := 667 / 100
               proximity_score := 9333 / 100, ret20_pct := some 10
               vol_percentile := 80, ma20 := some 60500
               ma60 := some (5372727 / 100), above_ma20 := true
               ma20_gt_ma60 := true } ∧
    (compute_signals_for_ticker "005930" c6Rows 60).map SignalResult.score
      ≠ some (86165 / 1000) := by
  refine ⟨by decide, by decide⟩

/-- Claim C6 amended — same example, with the composite score the code
actually reports: the raw score is 0.5·(280/3) + 0.3·75 + 0.15·80 + 0.05·100 =
517/6, which rounds at 3 decimals to 86.167. -/
theorem signals_example_score_86167 :
    (rawSignals (sortRowsDesc c6Rows) 60).proximity_score = 280 / 3 ∧
    (rawSignals (sortRowsDesc c6Rows) 60).score = 517 / 6 ∧
    roundTo 3 (517 / 6) = 86167 / 1000 ∧
    (compute_signals_for_ticker "005930" c6Rows 60).map SignalResult.score
      = some (86167 / 1000) ∧
    (compute_signals_for_ticker "005930" c6Rows 60).map SignalResult.proximity_pct
      = some (667 / 100) ∧
    (compute_signals_for_ticker "005930" c6Rows 60).map SignalResult.proximity_score
      = some (9333 / 100) := by
  refine ⟨by decide, by decide, by decide, by decide, by decide, by decide⟩

/-- Claim C7 counterexample — `vol_percentile` is rounded to 1 decimal place,
not 2: on an input whose raw volume percentile is 5/3 (= 1.666...), the engine
stores 1.7, while rounding to 2 decimals would give 1.67. -/
theorem vol_percentile_rounding_counterexample :
    (rawSignals (sortRowsDesc c7Rows) 60).vol_pct = 5 / 3 ∧
    (compute_signals_for_ticker "X" c7Rows 60).map SignalResult.vol_percentile
      = some (17 / 10) ∧
    roundTo 2 (5 / 3) = 167 / 100 ∧
    (17 / 10 : ℚ) ≠ 167 / 100 := by
  refine ⟨by decide, by decide, by decide, by decide⟩

/-- Claim C7 amended — output rounding precision: in every SignalResult the
engine produces, proximity_pct, proximity_score and ret20_pct are the raw
metrics rounded to 2 decimal places, the composite score is rounded to 3, but
vol_percentile is rounded to 1 decimal place (src/apps/signals.py line 134),
and ma20/ma60 are rounded to 2. -/
theorem signal_rounding_precision (t : String) (rows : List Row) (lb : Nat)
    (r : SignalResult) (h : compute_signals_for_ticker t rows lb = some r) :
    r.proximity_pct = roundTo 2 (rawSignals (sortRowsDesc rows) lb).proximity_pct ∧
    r.proximity_score = roundTo 2 (rawSignals (sortRowsDesc rows) lb).proximity_score ∧
    r.ret20_pct = ((rawSignals (sortRowsDesc rows) lb).ret20).map (roundTo 2) ∧
    r.vol_percentile = roundTo 1 (rawSignals (sortRowsDesc rows) lb).vol_pct ∧
    r.ma20 = ((rawSignals (sortRowsDesc rows) lb).ma20).map (roundTo 2) ∧
    r.ma60 = ((rawSignals (sortRowsDesc rows) lb).ma60).map (roundTo 2) ∧
    r.score = roundTo 3 (rawSignals (sortRowsDesc rows) lb).score := by
  simp only [compute_signals_for_ticker, computeFromSorted] at h
  split at h
  · exact absurd h (by simp)
  · have h2 := Option.some.inj h
    subst h2
    exact ⟨rfl, rfl, rfl, rfl, rfl, rfl, rfl⟩

/-- Witness for the amended C7 at a concrete input whose volume percentile
exposes the 1-decimal rounding. -/
theorem signal_rounding_precision_witness :
    compute_signals_for_ticker "X" c7Rows 60 = some c7Result ∧
    c7Result.vol_percentile = roundTo 1 (rawSignals (sortRowsDesc c7Rows) 60).vol_pct ∧
    c7Result.score = roundTo 3 (rawSignals (sortRowsDesc c7Rows) 60).score := by
  have h : compute_signals_for_ticker "X" c7Rows 60 = some c7Result := by decide
  have h2 := signal_rounding_precision "X" c7Rows 60 c7Result h
  exact ⟨h, h2.2.2.2.1, h2.2.2.2.2.2.2⟩

end
